import Mathlib

/-!
Verification development for the startupsp two-phase competition back-office.
Each definition is a shallow embedding of a concrete function of the source:
the ranking loop of `fetchScores` (Scoreboard.tsx), the payment-status
resolution of the auth listener (App.tsx), the phase-1 submission handler
(PhaseOneForm), the `publishResults` and scoring admin flow (AdminDashboard),
the e-mail fan-out and e-ticket generation (emailService), the member-edit and
phase-2 deadline logic (UserDashboard), and the team filtering of the
EmailDashboard. Firestore documents are modelled as Lean structures (optional
fields as `Option`), `undefined` as `none`, thrown JS exceptions as
`Except.error`, and effectful collaborators (storage upload, e-mail transport)
as explicit function parameters or action traces.
-/

namespace StartupSpark

/-- Ranking loop of `fetchScores` (Scoreboard.tsx lines 42-59): the fetched
submissions arrive ordered by `points` descending; the first entry keeps the
initial `rank = 1`, and from index 1 on, `rank[i] = rank[i-1]` when scores are
equal, else `i + 1`. This helper processes the tail: `i` is the absolute index
of the current element, `prevScore`/`prevRank` are the score and rank of the
element before it. -/
def assignRanksAux : List Int → Nat → Int → Nat → List Nat
  | [], _, _, _ => []
  | s :: rest, i, prevScore, prevRank =>
    let r := if s = prevScore then prevRank else i + 1
    r :: assignRanksAux rest (i + 1) s r

/-- Rank assignment of `fetchScores`: rank 1 for the head, then the tie-aware
loop of `assignRanksAux`. -/
def assignRanks : List Int → List Nat
  | [] => []
  | s :: rest => 1 :: assignRanksAux rest 1 s 1

/-- Team document fields of the `teams` collection as read by App.tsx
(only `paymentStatus` is consulted there; the field may be absent). -/
structure AppTeam where
  paymentStatus : Option String
deriving DecidableEq

/-- Per-user profile document of the `users` collection (App.tsx); its
`email` field may be absent. -/
structure UserProfile where
  email : Option String
deriving DecidableEq

/-- One record of the append-only `payments` log. -/
structure PaymentRecord where
  email : String
  status : String
deriving DecidableEq

/-- Payment status values used by App.tsx. -/
inductive PayStatus where
  | pending
  | paid
deriving DecidableEq

/-- Email selected by App.tsx line 84: `userDoc.exists() ?
userDoc.data().email : user.email` - the profile's stored email when a profile
document exists (even if that field is absent), else the principal's email. -/
def emailToCheck (profile : Option UserProfile) (authEmail : Option String) :
    Option String :=
  match profile with
  | some p => p.email
  | none => authEmail

/-- Payment-status resolution of the auth listener (App.tsx lines 78-102).
When no team document exists the status stays at its initial `pending` and the
payments log is never queried; when the team says `paid` the log is never
queried either; otherwise the log is searched for a record with the checked
email and status `paid`. -/
def resolvePaymentStatus (team : Option AppTeam) (profile : Option UserProfile)
    (authEmail : Option String) (payments : List PaymentRecord) : PayStatus :=
  match team with
  | none => PayStatus.pending
  | some t =>
    if t.paymentStatus = some "paid" then PayStatus.paid
    else
      match emailToCheck profile authEmail with
      | none => PayStatus.pending
      | some e =>
        if payments.any (fun p => p.email = e && p.status = "paid") then
          PayStatus.paid
        else PayStatus.pending

/-- Form state of PhaseOneForm (Scoreboard.tsx lines 216-225). -/
structure Phase1FormData where
  teamName : String
  collegeName : String
  whatsappNumber : String
  productDescription : String
  solution : String
  fileUrl : String
  youtubeLink : String
  registrationId : String
deriving DecidableEq

/-- Chosen file of the hidden file input; only its name is observable to the
submission flow (it keys the storage path). -/
structure FileData where
  name : String
deriving DecidableEq

/-- Document of the `phase1_submissions` collection as written by
`handleSubmit` (spread of the form data plus `userId`, `userName` and the two
timestamps); `points`, `review` and `reviewedAt` are attached later by the
admin scoring flow and absent on creation. -/
structure Phase1Submission where
  teamName : String
  collegeName : String
  whatsappNumber : String
  productDescription : String
  solution : String
  fileUrl : String
  youtubeLink : String
  registrationId : String
  userId : String
  userName : String
  submittedAt : String
  updatedAt : String
  points : Option Int
  review : Option String
  reviewedAt : Option String
deriving DecidableEq

/-- One invocation of the submit handler: the form state at that moment, the
chosen file (if any) and the current time. -/
structure SubmitCall where
  form : Phase1FormData
  file : Option FileData
  now : String
deriving DecidableEq

/-- Storage path used by `handleSubmit` for the presentation upload. -/
def presentationPath (userId : String) (f : FileData) : String :=
  "presentations/" ++ userId ++ "_" ++ f.name

/-- Participant-side `handleSubmit` of PhaseOneForm (Scoreboard.tsx lines
316-374). With an existing submission only the YouTube link (plus `updatedAt`)
is written via `updateDoc`, and an empty link is a distinct error; with no
existing submission the required fields and the file are validated and a full
document is created. `upl` maps a storage path to the download URL obtained
after a successful upload. -/
def participantSubmit (upl : String → String) (userId userName : String)
    (existing : Option Phase1Submission) (c : SubmitCall) :
    Except String Phase1Submission :=
  match existing with
  | some d =>
    if c.form.youtubeLink = "" then
      Except.error "Please provide a YouTube video link"
    else
      Except.ok { d with youtubeLink := c.form.youtubeLink, updatedAt := c.now }
  | none =>
    if c.form.collegeName = "" || c.form.whatsappNumber = "" ||
        c.form.productDescription = "" || c.form.solution = "" then
      Except.error "Please fill in all required fields"
    else
      match c.file with
      | none => Except.error "Please upload your presentation file"
      | some f =>
        Except.ok
          { teamName := c.form.teamName
            collegeName := c.form.collegeName
            whatsappNumber := c.form.whatsappNumber
            productDescription := c.form.productDescription
            solution := c.form.solution
            fileUrl := upl (presentationPath userId f)
            youtubeLink := c.form.youtubeLink
            registrationId := c.form.registrationId
            userId := userId
            userName := userName
            submittedAt := c.now
            updatedAt := c.now
            points := none
            review := none
            reviewedAt := none }

/-- Stored document after one submit invocation: an error leaves the stored
document untouched (the failed handler performs no write). -/
def applySubmit (upl : String → String) (userId userName : String)
    (existing : Option Phase1Submission) (c : SubmitCall) :
    Option Phase1Submission :=
  match participantSubmit upl userId userName existing c with
  | Except.ok d => some d
  | Except.error _ => existing

/-- Stored document after a sequence of submit invocations. -/
def runSubmits (upl : String → String) (userId userName : String)
    (existing : Option Phase1Submission) (calls : List SubmitCall) :
    Option Phase1Submission :=
  calls.foldl (applySubmit upl userId userName) existing

/-- Observable storage and document-store effects of the two upload flows. -/
inductive StorageAction where
  | uploadBytes (path : String)
  | getDownloadURL (path : String)
  | writeSubmission (collectionName : String) (url : String)
deriving DecidableEq

/-- Effect trace of the initial-submission branch of `handleSubmit`
(Scoreboard.tsx lines 338-362): validation throws before any effect;
`uploadBytes` is awaited first, a failure (modelled by `uploadOk path =
false`) raises into the catch block, then `getDownloadURL`, and only then the
`setDoc` of the submission document referencing the obtained URL. -/
def phase1InitialSubmitTrace (userId : String) (form : Phase1FormData)
    (file : Option FileData) (uploadOk : String → Bool)
    (urlAt : String → Option String) : List StorageAction :=
  if form.collegeName = "" || form.whatsappNumber = "" ||
      form.productDescription = "" || form.solution = "" then []
  else
    match file with
    | none => []
    | some f =>
      let path := presentationPath userId f
      if uploadOk path then
        match urlAt path with
        | some url =>
          [StorageAction.uploadBytes path, StorageAction.getDownloadURL path,
            StorageAction.writeSubmission "phase1_submissions" url]
        | none =>
          [StorageAction.uploadBytes path, StorageAction.getDownloadURL path]
      else [StorageAction.uploadBytes path]

/-- Storage path used by `handleProposalUpload` for the proposal PDF. -/
def proposalPath (userId : String) (f : FileData) : String :=
  "proposals/" ++ userId ++ "_" ++ f.name

/-- Effect trace of `handleProposalUpload` (Scoreboard.tsx lines 844-870):
returns at once without a proposal file; otherwise upload, then URL, then the
merge-write of the `phase2_submissions` document referencing that URL, each
failure raising into the catch block before the next step. -/
def phase2ProposalUploadTrace (userId : String)
    (businessProposal : Option FileData) (uploadOk : String → Bool)
    (urlAt : String → Option String) : List StorageAction :=
  match businessProposal with
  | none => []
  | some f =>
    let path := proposalPath userId f
    if uploadOk path then
      match urlAt path with
      | some url =>
        [StorageAction.uploadBytes path, StorageAction.getDownloadURL path,
          StorageAction.writeSubmission "phase2_submissions" url]
      | none =>
        [StorageAction.uploadBytes path, StorageAction.getDownloadURL path]
    else [StorageAction.uploadBytes path]

/-- Submission row as fetched by the admin dashboard (part_001 `fetchData`);
only the `points` field matters to `publishResults`. -/
structure SubmissionRow where
  id : String
  points : Option Int
deriving DecidableEq

/-- The `config/phase1Results` document. -/
structure ResultsConfig where
  published : Bool
  publishedAt : Option String
deriving DecidableEq

/-- Firestore `updateDoc` on the config document: it fails when the document
does not exist (it never creates), else overwrites the given fields (here:
both fields of the document). -/
def updateDocConfig (existing : Option ResultsConfig) (upd : ResultsConfig) :
    Except String (Option ResultsConfig) :=
  match existing with
  | none => Except.error "No document to update"
  | some _ => Except.ok (some upd)

/-- Published flag as read by Scoreboard.tsx (`resultsConfig?.data()?.
published`): false when the document is absent. -/
def publishedFlag : Option ResultsConfig → Bool
  | some cfg => cfg.published
  | none => false

/-- Admin `publishResults` (part_001 lines 82-115): throws when any fetched
submission has `points === undefined`; otherwise reads the config document
and calls `updateDoc` with `published = true` in both the exists and the
not-exists branch of the source (the two branches are textually identical).
Returns the resulting config document and the outcome. -/
def publishResults (submissions : List SubmissionRow)
    (configDoc : Option ResultsConfig) (now : String) :
    Option ResultsConfig × Except String Unit :=
  if 0 < (submissions.filter (fun sub => sub.points = none)).length then
    (configDoc,
      Except.error "All submissions must be scored before publishing results")
  else
    match updateDocConfig configDoc
        ({ published := true, publishedAt := some now }) with
    | Except.ok newDoc => (newDoc, Except.ok ())
    | Except.error e => (configDoc, Except.error e)

/-- Team member as used by the email service (part_000). -/
structure TeamMember where
  name : String
  email : String
  phone : String
deriving DecidableEq

/-- Workshop details entered in the EmailDashboard form. -/
structure WorkshopDetails where
  title : String
  date : String
  venue : String
deriving DecidableEq

/-- Team data handed to `sendWorkshopInvite` (part_000 lines 92-103). -/
structure InviteTeamData where
  teamName : String
  registrationId : String
  members : List TeamMember
deriving DecidableEq

/-- The e-mail send of part_000 `sendEmail` (lines 71-90): a transport
failure is caught inside and reported as `false`; the function never
throws. `transport` says whether the underlying mail delivery to a given
address succeeds. -/
def sendEmail (transport : String → Bool) (recipient : String) : Bool :=
  transport recipient

/-- Team-level `sendWorkshopInvite` (part_000 lines 92-146): loops over the
members, awaiting `sendEmail` for each but discarding its boolean result,
then returns `true`. The first component is the function's return value;
the second records the per-member transport outcomes that occurred. -/
def sendWorkshopInvite (transport : String → Bool)
    (teamData : InviteTeamData) : Bool × List Bool :=
  (true, teamData.members.map (fun m => sendEmail transport m.email))

/-- Aggregate counts reported by the EmailDashboard. -/
structure SendCounts where
  successCount : Nat
  failCount : Nat
deriving DecidableEq

/-- EmailDashboard `handleSendWorkshopInvites` (lines 70-97): validates the
workshop details, then iterates the current `teams` list, incrementing
`successCount` when `sendWorkshopInvite` returns `true` for a team and
`failCount` otherwise. -/
def handleSendWorkshopInvites (transport : String → Bool)
    (teams : List InviteTeamData) (details : WorkshopDetails) :
    Except String SendCounts :=
  if details.title = "" || details.date = "" || details.venue = "" then
    Except.error "Please fill in all workshop details"
  else
    Except.ok (teams.foldl
      (fun acc team =>
        if (sendWorkshopInvite transport team).1 then
          { acc with successCount := acc.successCount + 1 }
        else { acc with failCount := acc.failCount + 1 })
      ⟨0, 0⟩)

/-- Concrete 3-member team used to probe the fan-out counts. -/
def cexTeam : InviteTeamData :=
  ⟨"T", "R1", [⟨"a", "a@x", "1"⟩, ⟨"b", "b@x", "2"⟩, ⟨"c", "c@x", "3"⟩]⟩

/-- Transport that fails for exactly the second member of `cexTeam`. -/
def cexTransport : String → Bool := fun e => !(e = "b@x")

/-- Member record of the user dashboard (UserDashboard, Scoreboard.tsx lines
767-774); the last three fields are optional. -/
structure DashMember where
  name : String
  email : String
  phone : String
  rollNumber : Option String
  department : Option String
  year : Option String
deriving DecidableEq

/-- A `Partial<TeamMember>` patch as passed to `handleMemberUpdate`: fields
present in the patch override the member's fields (JS object spread). -/
structure MemberPatch where
  name : Option String
  email : Option String
  phone : Option String
  rollNumber : Option String
  department : Option String
  year : Option String
deriving DecidableEq

/-- JS spread `{...member, ...data}`. -/
def applyPatch (m : DashMember) (p : MemberPatch) : DashMember :=
  { name := match p.name with | some v => v | none => m.name
    email := match p.email with | some v => v | none => m.email
    phone := match p.phone with | some v => v | none => m.phone
    rollNumber := match p.rollNumber with
      | some v => some v | none => m.rollNumber
    department := match p.department with
      | some v => some v | none => m.department
    year := match p.year with | some v => some v | none => m.year }

/-- Document of the `teams` collection with every field optional, since a
Firestore `setDoc` without merge replaces the document by exactly the fields
it is given. -/
structure TeamsDoc where
  teamName : Option String
  registrationId : Option String
  members : Option (List DashMember)
  paymentStatus : Option String
  phase2Selected : Option Bool
deriving DecidableEq

/-- UserDashboard `handleMemberUpdate` (Scoreboard.tsx lines 828-842):
patches the member at `index` and then calls `setDoc` on the team document
with `{ members: updatedMembers }` and no merge option, so the stored
document afterwards holds only the `members` field, whatever was stored
before. -/
def handleMemberUpdate (teamMembers : List DashMember) (index : Nat)
    (patch : MemberPatch) (_stored : Option TeamsDoc) : Option TeamsDoc :=
  let updatedMembers := teamMembers.mapIdx
    (fun i m => if i = index then applyPatch m patch else m)
  some { teamName := none, registrationId := none,
         members := some updatedMembers, paymentStatus := none,
         phase2Selected := none }

/-- Concrete member and paid team document probing `handleMemberUpdate`. -/
def dashMember0 : DashMember := ⟨"a", "a@x", "1", none, none, none⟩

/-- Team document whose payment status is `paid` before the member edit. -/
def teamsDoc0 : TeamsDoc :=
  ⟨some "T", some "R1", some [dashMember0], some "paid", some false⟩

/-- Patch renaming the first member, as the dashboard does on each
keystroke in the name input. -/
def patch0 : MemberPatch := ⟨some "NewName", none, none, none, none, none⟩

/-- UserDashboard `isSubmissionClosed` (Scoreboard.tsx lines 891-893):
`new Date().getTime() > phase2Deadline`, strictly greater. Times are epoch
milliseconds. -/
def isSubmissionClosed (phase2Deadline now : Int) : Bool :=
  decide (phase2Deadline < now)

/-- Gate on the phase-2 URL input, file chooser and upload button: each is
rendered with `disabled={isSubmissionClosed()}`. -/
def phase2MutationAllowed (phase2Deadline now : Int) : Bool :=
  !(isSubmissionClosed phase2Deadline now)

/-- Countdown tick of `startCountdown` (Scoreboard.tsx lines 872-889):
`distance = phase2Deadline - now`; at `distance <= 0` the timer is cleared
and the display set to `Submission Closed`, otherwise the floor-divided
days/hours/minutes/seconds string is shown. -/
def countdownDisplay (phase2Deadline now : Int) : String :=
  let distance := phase2Deadline - now
  if distance ≤ 0 then "Submission Closed"
  else
    let d := distance.toNat
    let days := d / 86400000
    let hours := d % 86400000 / 3600000
    let minutes := d % 3600000 / 60000
    let seconds := d % 60000 / 1000
    s!"{days}d {hours}h {minutes}m {seconds}s"

/-- Character-list test for `a.startsWith(b)` used to build substring
containment. -/
def startsWithChars : List Char → List Char → Bool
  | [], _ => true
  | _ :: _, [] => false
  | a :: as, b :: bs => a == b && startsWithChars as bs

/-- JS `haystack.includes(needle)` on character lists. -/
def includesSub (needle : List Char) : List Char → Bool
  | [] => needle.isEmpty
  | c :: rest => startsWithChars needle (c :: rest) || includesSub needle rest

/-- Team row of the EmailDashboard (`fetchTeams` maps raw documents whose
`teamName`/`registrationId` may be absent; `phase2Selected` is used by its
JS truthiness, absent meaning false). -/
structure EmailTeamDoc where
  id : String
  teamName : Option String
  registrationId : Option String
  phase2Selected : Bool
  members : List TeamMember
deriving DecidableEq

/-- The dashboard's selection-status filter buttons. -/
inductive FilterStatus where
  | all
  | selected
  | pending
deriving DecidableEq

/-- Optional-chained `field?.toLowerCase().includes(searchTerm.toLowerCase())`
of EmailDashboard lines 50-51: an absent field never matches. -/
def jsIncludesLower (field : Option String) (searchTerm : String) : Bool :=
  match field with
  | some v => includesSub searchTerm.toLower.data v.toLower.data
  | none => false

/-- Search predicate of `fetchTeams`: team name or registration id contains
the search term, case-insensitively. -/
def matchesSearch (searchTerm : String) (t : EmailTeamDoc) : Bool :=
  jsIncludesLower t.teamName searchTerm ||
    jsIncludesLower t.registrationId searchTerm

/-- EmailDashboard `fetchTeams` (lines 37-68): fetches all teams, then
narrows by the search term (skipped when empty) and by the selection-status
filter (skipped on `all`). -/
def fetchTeams (allTeams : List EmailTeamDoc) (searchTerm : String)
    (filterStatus : FilterStatus) : List EmailTeamDoc :=
  let afterSearch :=
    if searchTerm = "" then allTeams
    else allTeams.filter (fun t => matchesSearch searchTerm t)
  match filterStatus with
  | FilterStatus.all => afterSearch
  | FilterStatus.selected => afterSearch.filter (fun t => t.phase2Selected)
  | FilterStatus.pending => afterSearch.filter (fun t => !t.phase2Selected)

/-- Teams the workshop-invite batch attempts to send to:
`handleSendWorkshopInvites` iterates exactly the `teams` state, which holds
the `fetchTeams` output for the current search term and filter. -/
def workshopInviteAttempts (teams : List EmailTeamDoc) : List EmailTeamDoc :=
  teams

/-- Combined narrowing predicate of the dashboard's two filters. -/
def passesFilters (searchTerm : String) (fs : FilterStatus)
    (t : EmailTeamDoc) : Bool :=
  (decide (searchTerm = "") || matchesSearch searchTerm t) &&
  (match fs with
   | FilterStatus.all => true
   | FilterStatus.selected => t.phase2Selected
   | FilterStatus.pending => !t.phase2Selected)

/-- Lowercase hexadecimal digit character (0-9, a-f), as emitted by the
`\u00XX` escapes of `JSON.stringify`. -/
def hexDigit (n : Nat) : Char :=
  if n < 10 then Char.ofNat (48 + n) else Char.ofNat (87 + n)

/-- String-character escaping of `JSON.stringify` (ECMA-262 QuoteJSONString):
quote and backslash are backslash-escaped, the five control characters with
short forms use them, the remaining control characters become `\u00XX`, and
every other character is emitted as itself. -/
def escapeChar (c : Char) : List Char :=
  if c = '\"' then ['\\', '\"']
  else if c = '\\' then ['\\', '\\']
  else if c = Char.ofNat 8 then ['\\', 'b']
  else if c = Char.ofNat 9 then ['\\', 't']
  else if c = Char.ofNat 10 then ['\\', 'n']
  else if c = Char.ofNat 12 then ['\\', 'f']
  else if c = Char.ofNat 13 then ['\\', 'r']
  else if c.toNat < 32 then
    ['\\', 'u', '0', '0', hexDigit (c.toNat / 16), hexDigit (c.toNat % 16)]
  else [c]

/-- Escape every character of a string (as a character list). -/
def escapeString : List Char → List Char
  | [] => []
  | c :: cs => escapeChar c ++ escapeString cs

/-- Value of one hexadecimal digit character, accepting both cases. -/
def parseHex (c : Char) : Option Nat :=
  if 48 ≤ c.toNat ∧ c.toNat ≤ 57 then some (c.toNat - 48)
  else if 97 ≤ c.toNat ∧ c.toNat ≤ 102 then some (c.toNat - 87)
  else if 65 ≤ c.toNat ∧ c.toNat ≤ 70 then some (c.toNat - 55)
  else none

/-- JSON string-literal body parser (the part of `JSON.parse` consuming the
characters after an opening quote up to and including the closing quote),
returning the decoded characters and the remaining input. Fuel-indexed to
make it structurally recursive; one unit of fuel is spent per consumed
character group, so fuel equal to the input length always suffices. -/
def parseStringBodyFuel : Nat → List Char → Option (List Char × List Char)
  | 0, _ => none
  | _ + 1, [] => none
  | fuel + 1, c :: rest =>
    if c = '\"' then some ([], rest)
    else if c = '\\' then
      match rest with
      | [] => none
      | e :: rest2 =>
        if e = '\"' || e = '\\' || e = '/' then
          (parseStringBodyFuel fuel rest2).map (fun p => (e :: p.1, p.2))
        else if e = 'b' then
          (parseStringBodyFuel fuel rest2).map
            (fun p => (Char.ofNat 8 :: p.1, p.2))
        else if e = 't' then
          (parseStringBodyFuel fuel rest2).map
            (fun p => (Char.ofNat 9 :: p.1, p.2))
        else if e = 'n' then
          (parseStringBodyFuel fuel rest2).map
            (fun p => (Char.ofNat 10 :: p.1, p.2))
        else if e = 'f' then
          (parseStringBodyFuel fuel rest2).map
            (fun p => (Char.ofNat 12 :: p.1, p.2))
        else if e = 'r' then
          (parseStringBodyFuel fuel rest2).map
            (fun p => (Char.ofNat 13 :: p.1, p.2))
        else if e = 'u' then
          match rest2 with
          | h1 :: h2 :: h3 :: h4 :: rest3 =>
            match parseHex h1, parseHex h2, parseHex h3, parseHex h4 with
            | some a, some b, some c2, some d =>
              (parseStringBodyFuel fuel rest3).map
                (fun p =>
                  (Char.ofNat (4096 * a + 256 * b + 16 * c2 + d) :: p.1, p.2))
            | _, _, _, _ => none
          | _ => none
        else none
    else (parseStringBodyFuel fuel rest).map (fun p => (c :: p.1, p.2))

/-- JSON string-literal body parser with sufficient fuel. -/
def parseStringBody (l : List Char) : Option (List Char × List Char) :=
  parseStringBodyFuel l.length l

/-- Literal `\x7b"regId":"` opening the serialized payload object. -/
def objOpen : List Char :=
  [Char.ofNat 123, '\"', 'r', 'e', 'g', 'I', 'd', '\"', ':', '\"']

/-- Literal `,"name":"` between the first and second payload fields. -/
def midName : List Char := [',', '\"', 'n', 'a', 'm', 'e', '\"', ':', '\"']

/-- Literal `,"team":"` between the second and third payload fields. -/
def midTeam : List Char := [',', '\"', 't', 'e', 'a', 'm', '\"', ':', '\"']

/-- Serialization of the QR payload object built by `generateETicket`
(part_000 lines 39-45): `JSON.stringify` of `{regId, name, team}` with the
keys in that fixed order and each value string-escaped. -/
def jsonStringifyPayload (regId nm tm : List Char) : List Char :=
  objOpen ++ (escapeString regId ++ ('\"' :: (midName ++ (escapeString nm ++
    ('\"' :: (midTeam ++ (escapeString tm ++
      ('\"' :: [Char.ofNat 125]))))))))

/-- Consume an expected literal from the front of the input. -/
def dropLit : List Char → List Char → Option (List Char)
  | [], s => some s
  | _ :: _, [] => none
  | c :: cs, x :: xs => if x = c then dropLit cs xs else none

/-- Decoder of the serialized payload (the `JSON.parse` of a scanner reading
the e-ticket code, specialized to the fixed `{regId, name, team}` object
shape that `generateETicket` emits). -/
def decodeTicketPayload (s : List Char) :
    Option (String × String × String) :=
  (dropLit objOpen s).bind (fun s1 =>
    (parseStringBody s1).bind (fun p1 =>
      (dropLit midName p1.2).bind (fun s3 =>
        (parseStringBody s3).bind (fun p2 =>
          (dropLit midTeam p2.2).bind (fun s5 =>
            (parseStringBody s5).bind (fun p3 =>
              if p3.2 = [Char.ofNat 125] then
                some (String.mk p1.1, String.mk p2.1, String.mk p3.1)
              else none))))))

/-- Event details block of an e-ticket (part_000 lines 24-28). -/
structure EventDetails where
  date : String
  venue : String
  workshopTitle : Option String
deriving DecidableEq

/-- Input of `generateETicket` (part_000 lines 20-29). -/
structure ETicketData where
  teamName : String
  registrationId : String
  member : TeamMember
  eventDetails : EventDetails
deriving DecidableEq

/-- The `qrData` string rendered into the scannable code by `generateETicket`
(part_000 lines 39-45): `JSON.stringify` of the registration id, member name
and team name. -/
def generateETicketQrData (data : ETicketData) : List Char :=
  jsonStringifyPayload data.registrationId.data data.member.name.data
    data.teamName.data

theorem assignRanksAux_length (l : List Int) (i : Nat) (ps : Int) (pr : Nat) :
    (assignRanksAux l i ps pr).length = l.length := by
  induction l generalizing i ps pr with
  | nil => rfl
  | cons s rest ih => simp [assignRanksAux, ih]

theorem assignRanksAux_head (s : Int) (rest : List Int) (i : Nat) (ps : Int)
    (pr : Nat) :
    (assignRanksAux (s :: rest) i ps pr).getD 0 0 =
      if s = ps then pr else i + 1 := by
  simp [assignRanksAux]

theorem assignRanksAux_rec (l : List Int) :
    ∀ (i : Nat) (ps : Int) (pr k : Nat), k + 1 < l.length →
      (assignRanksAux l i ps pr).getD (k + 1) 0 =
        if l.getD (k + 1) 0 = l.getD k 0 then
          (assignRanksAux l i ps pr).getD k 0
        else i + k + 2 := by
  induction l with
  | nil => intro i ps pr k hk; simp at hk
  | cons s rest ih =>
    intro i ps pr k hk
    match k with
    | 0 =>
      match rest, hk with
      | t :: rest2, _ =>
        simp [assignRanksAux]
    | k + 1 =>
      simp only [assignRanksAux, List.getD_cons_succ]
      have h2 := ih (i + 1) s (if s = ps then pr else i + 1) k
        (by simpa using hk)
      have h3 : i + 1 + k + 2 = i + (k + 1) + 2 := by omega
      rw [h3] at h2
      exact h2

/-- C1: for every score list sorted by points descending, the ranking loop of
`fetchScores` assigns rank 1 to the first submission, and at each later
position the rank equals the previous rank on a tie and the 1-based position
otherwise; in particular `[90, 90, 80, 70, 70, 70]` yields
`[1, 1, 3, 4, 4, 4]`. -/
theorem ranking_competition (scores : List Int)
    (hsorted : List.Chain' (fun a b => b ≤ a) scores) :
    (assignRanks scores).length = scores.length ∧
    (0 < scores.length → (assignRanks scores).getD 0 0 = 1) ∧
    (∀ i : Nat, i + 1 < scores.length →
      (assignRanks scores).getD (i + 1) 0 =
        if scores.getD (i + 1) 0 = scores.getD i 0 then
          (assignRanks scores).getD i 0
        else i + 2) ∧
    assignRanks [90, 90, 80, 70, 70, 70] = [1, 1, 3, 4, 4, 4] := by
  refine ⟨?_, ?_, ?_, by decide⟩
  · cases scores with
    | nil => rfl
    | cons s rest => simp [assignRanks, assignRanksAux_length]
  · cases scores with
    | nil => simp
    | cons s rest => intro _; rfl
  · cases scores with
    | nil => intro i hi; simp at hi
    | cons s rest =>
      intro i hi
      match i with
      | 0 =>
        match rest, hi with
        | t :: rest2, _ =>
          simp only [assignRanks, List.getD_cons_succ, List.getD_cons_zero]
          rw [assignRanksAux_head]
      | i + 1 =>
        simp only [assignRanks, List.getD_cons_succ]
        have h2 := assignRanksAux_rec rest 1 s 1 i (by simpa using hi)
        have h3 : 1 + i + 2 = i + 1 + 2 := by omega
        rw [h3] at h2
        exact h2

/-- Witness for C1: the theorem applied to the spec's example list (which is
sorted descending), extracting the example equation. -/
theorem ranking_competition_witness :
    assignRanks [90, 90, 80, 70, 70, 70] = [1, 1, 3, 4, 4, 4] :=
  (ranking_competition [90, 90, 80, 70, 70, 70]
    (by norm_num [List.chain'_cons])).2.2.2

/-- C3: payment-status precedence of App.tsx. A team document with
`paymentStatus = "paid"` wins for every payments log; otherwise, with a team
document present, the log is queried for the checked email (profile email when
a profile exists, else the principal's); with no checkable email, or with no
team document at all, the result is pending. -/
theorem paymentResolution_precedence :
    (∀ (t : AppTeam) (profile : Option UserProfile) (authEmail : Option String)
        (payments : List PaymentRecord),
      t.paymentStatus = some "paid" →
        resolvePaymentStatus (some t) profile authEmail payments =
          PayStatus.paid) ∧
    (∀ (t : AppTeam) (profile : Option UserProfile) (authEmail : Option String)
        (payments : List PaymentRecord) (e : String),
      ¬ t.paymentStatus = some "paid" →
      emailToCheck profile authEmail = some e →
        (resolvePaymentStatus (some t) profile authEmail payments =
            PayStatus.paid ↔
          ∃ p, p ∈ payments ∧ p.email = e ∧ p.status = "paid")) ∧
    (∀ (t : AppTeam) (profile : Option UserProfile) (authEmail : Option String)
        (payments : List PaymentRecord),
      ¬ t.paymentStatus = some "paid" →
      emailToCheck profile authEmail = none →
        resolvePaymentStatus (some t) profile authEmail payments =
          PayStatus.pending) ∧
    (∀ (profile : Option UserProfile) (authEmail : Option String)
        (payments : List PaymentRecord),
      resolvePaymentStatus none profile authEmail payments =
        PayStatus.pending) := by
  refine ⟨?_, ?_, ?_, ?_⟩
  · intro t profile authEmail payments hpaid
    simp [resolvePaymentStatus, hpaid]
  · intro t profile authEmail payments e hnot hemail
    simp only [resolvePaymentStatus, if_neg hnot, hemail]
    constructor
    · intro h
      by_cases hq : payments.any (fun p => p.email = e && p.status = "paid")
      · rcases List.any_eq_true.mp hq with ⟨p, hp, hpe⟩
        exact ⟨p, hp, by simpa using hpe⟩
      · simp [hq] at h
    · intro ⟨p, hp, hpe, hps⟩
      have : payments.any (fun p => p.email = e && p.status = "paid") := by
        exact List.any_eq_true.mpr ⟨p, hp, by simp [hpe, hps]⟩
      simp [this]
  · intro t profile authEmail payments hnot hemail
    simp [resolvePaymentStatus, if_neg hnot, hemail]
  · intro profile authEmail payments
    rfl

/-- Witness for C3: a paid team short-circuits a log that would say pending,
and with no team document at all the result is pending even though the log
holds a paid record for the user's email. -/
theorem paymentResolution_precedence_witness :
    resolvePaymentStatus (some ⟨some "paid"⟩) (some ⟨some "u@x.com"⟩) none
        [⟨"u@x.com", "pending"⟩] = PayStatus.paid ∧
    resolvePaymentStatus none (some ⟨some "u@x.com"⟩) none
        [⟨"u@x.com", "paid"⟩] = PayStatus.pending :=
  ⟨paymentResolution_precedence.1 ⟨some "paid"⟩ (some ⟨some "u@x.com"⟩) none
      [⟨"u@x.com", "pending"⟩] rfl,
    paymentResolution_precedence.2.2.2 (some ⟨some "u@x.com"⟩) none
      [⟨"u@x.com", "paid"⟩]⟩

/-- C4: once a Phase1Submission exists, any sequence of further submit
invocations (with arbitrary form contents, files and times) leaves a stored
document that differs from the original at most in `youtubeLink` and
`updatedAt`; in particular `productDescription`, `solution`, `collegeName`,
`whatsappNumber` and `fileUrl` keep their values for the lifetime of the
record. -/
theorem phase1_locked_fields (upl : String → String) (userId userName : String)
    (d : Phase1Submission) (calls : List SubmitCall) :
    ∃ yl ua, runSubmits upl userId userName (some d) calls =
      some { d with youtubeLink := yl, updatedAt := ua } := by
  induction calls generalizing d with
  | nil => exact ⟨d.youtubeLink, d.updatedAt, rfl⟩
  | cons c rest ih =>
    show ∃ yl ua,
      runSubmits upl userId userName
        (applySubmit upl userId userName (some d) c) rest =
        some { d with youtubeLink := yl, updatedAt := ua }
    by_cases hyl : c.form.youtubeLink = ""
    · have ha : applySubmit upl userId userName (some d) c = some d := by
        simp [applySubmit, participantSubmit, hyl]
      rw [ha]
      exact ih d
    · have ha : applySubmit upl userId userName (some d) c =
          some { d with youtubeLink := c.form.youtubeLink,
                        updatedAt := c.now } := by
        simp [applySubmit, participantSubmit, hyl]
      rw [ha]
      obtain ⟨yl, ua, h⟩ :=
        ih { d with youtubeLink := c.form.youtubeLink, updatedAt := c.now }
      exact ⟨yl, ua, h⟩

/-- C9: in both upload flows, a failed storage upload means the write of the
submission document is never attempted: no `writeSubmission` action occurs in
the trace of `handleSubmit` (initial phase-1 submission) or of
`handleProposalUpload` (phase-2 proposal) when the upload of the chosen file
fails. -/
theorem upload_then_write_sequence (userId : String) (form : Phase1FormData)
    (uploadOk : String → Bool) (urlAt : String → Option String)
    (f : FileData) :
    (uploadOk (presentationPath userId f) = false →
      ∀ c url, StorageAction.writeSubmission c url ∉
        phase1InitialSubmitTrace userId form (some f) uploadOk urlAt) ∧
    (uploadOk (proposalPath userId f) = false →
      ∀ c url, StorageAction.writeSubmission c url ∉
        phase2ProposalUploadTrace userId (some f) uploadOk urlAt) := by
  constructor
  · intro hfail c url
    by_cases hv : form.collegeName = "" || form.whatsappNumber = "" ||
        form.productDescription = "" || form.solution = ""
    · simp [phase1InitialSubmitTrace, hv]
    · simp [phase1InitialSubmitTrace, hv, hfail]
  · intro hfail c url
    simp [phase2ProposalUploadTrace, hfail]

/-- Witness for C9: a concrete filled form and proposal file with a transport
whose upload always fails produce traces containing no submission write. -/
theorem upload_then_write_sequence_witness :
    StorageAction.writeSubmission "phase1_submissions" "u" ∉
      phase1InitialSubmitTrace "team1"
        ⟨"T", "College", "99", "Desc", "Sol", "", "", "R1"⟩
        (some ⟨"deck.pptx"⟩) (fun _ => false) (fun _ => none) ∧
    StorageAction.writeSubmission "phase2_submissions" "u" ∉
      phase2ProposalUploadTrace "team1" (some ⟨"plan.pdf"⟩)
        (fun _ => false) (fun _ => none) :=
  ⟨(upload_then_write_sequence "team1"
      ⟨"T", "College", "99", "Desc", "Sol", "", "", "R1"⟩
      (fun _ => false) (fun _ => none) ⟨"deck.pptx"⟩).1 rfl
      "phase1_submissions" "u",
    (upload_then_write_sequence "team1"
      ⟨"T", "College", "99", "Desc", "Sol", "", "", "R1"⟩
      (fun _ => false) (fun _ => none) ⟨"plan.pdf"⟩).2 rfl
      "phase2_submissions" "u"⟩

/-- C2 failing input: every fetched submission is scored, yet with no
pre-existing `config/phase1Results` document `publishResults` fails (the
source calls `updateDoc`, which requires an existing document, in both
branches of its exists check, despite its own comment announcing creation)
and `published` stays false. -/
theorem publishResults_missing_config :
    (∀ s ∈ [SubmissionRow.mk "A" (some 80)], s.points ≠ none) ∧
    publishResults [SubmissionRow.mk "A" (some 80)] none "t0" =
      (none, Except.error "No document to update") ∧
    publishedFlag (publishResults [SubmissionRow.mk "A" (some 80)] none
      "t0").1 = false :=
  ⟨by decide, rfl, rfl⟩

/-- C5 counterexample: over the single 3-member team `cexTeam` with a
transport failing for exactly one member, the dashboard reports
`successCount = 1, failCount = 0` (it counts teams, and the member failure
is discarded inside `sendWorkshopInvite`), not the claimed
`successCount = 2, failCount = 1`. -/
theorem fanout_counts_counterexample :
    (cexTeam.members.filter (fun m => !(cexTransport m.email))).length = 1 ∧
    handleSendWorkshopInvites cexTransport [cexTeam] ⟨"W", "D", "V"⟩ =
      Except.ok (SendCounts.mk 1 0) ∧
    ¬ SendCounts.mk 1 0 = SendCounts.mk 2 1 :=
  ⟨by decide, rfl, by decide⟩

/-- C5 amended: one member's transport failure indeed neither aborts the
batch nor raises a batch-level error, but the outcome is counted per team
and member failures are invisible: with valid workshop details the batch
always reports `successCount` equal to the number of teams in the current
list and `failCount = 0`, for every transport. -/
theorem fanout_counts_amended (transport : String → Bool)
    (teams : List InviteTeamData) (details : WorkshopDetails)
    (h1 : ¬ details.title = "") (h2 : ¬ details.date = "")
    (h3 : ¬ details.venue = "") :
    handleSendWorkshopInvites transport teams details =
      Except.ok ⟨teams.length, 0⟩ := by
  have key : ∀ (l : List InviteTeamData) (s f : Nat),
      l.foldl
        (fun (acc : SendCounts) team =>
          if (sendWorkshopInvite transport team).1 then
            { acc with successCount := acc.successCount + 1 }
          else { acc with failCount := acc.failCount + 1 })
        ⟨s, f⟩ = (⟨s + l.length, f⟩ : SendCounts) := by
    intro l
    induction l with
    | nil => intro s f; simp
    | cons t rest ih =>
      intro s f
      rw [List.foldl_cons]
      show List.foldl
        (fun (acc : SendCounts) team =>
          if (sendWorkshopInvite transport team).1 then
            { acc with successCount := acc.successCount + 1 }
          else { acc with failCount := acc.failCount + 1 })
        ⟨s + 1, f⟩ rest = (⟨s + (t :: rest).length, f⟩ : SendCounts)
      rw [ih (s + 1) f]
      have harith : s + 1 + rest.length = s + (t :: rest).length := by
        rw [List.length_cons]
        omega
      rw [harith]
  unfold handleSendWorkshopInvites
  rw [if_neg (by simp [h1, h2, h3])]
  rw [key teams 0 0]
  simp

/-- Witness for the amended C5: the concrete 3-member team with one failing
member reports one successful team and zero failures. -/
theorem fanout_counts_amended_witness :
    handleSendWorkshopInvites cexTransport [cexTeam] ⟨"W", "D", "V"⟩ =
      Except.ok (SendCounts.mk 1 0) :=
  fanout_counts_amended cexTransport [cexTeam] ⟨"W", "D", "V"⟩
    (by decide) (by decide) (by decide)

/-- C6 failing input: editing one member's name on a team whose stored
document has `paymentStatus = "paid"` stores a document holding only the
`members` field, so the paid status is gone: `setDoc` without merge
replaces the whole team document. -/
theorem memberUpdate_drops_paid :
    teamsDoc0.paymentStatus = some "paid" ∧
    handleMemberUpdate [dashMember0] 0 patch0 (some teamsDoc0) =
      some ⟨none, none, some [⟨"NewName", "a@x", "1", none, none, none⟩],
        none, none⟩ ∧
    (TeamsDoc.mk none none
        (some [⟨"NewName", "a@x", "1", none, none, none⟩]) none
        none).paymentStatus ≠ some "paid" :=
  ⟨rfl, by decide, by decide⟩

/-- C7 counterexample: at the instant `now = phase2Deadline` (deadline 0,
time 0) the countdown already reads `Submission Closed`, yet
`isSubmissionClosed` is false and the phase-2 inputs are still enabled,
contradicting "rejected or disabled for every t at or after the
deadline". -/
theorem phase2_boundary_counterexample :
    ((0 : Int) ≤ 0) ∧ phase2MutationAllowed 0 0 = true ∧
    countdownDisplay 0 0 = "Submission Closed" :=
  ⟨le_refl 0, rfl, rfl⟩

/-- C7 amended: phase-2 mutation is enabled exactly while `now ≤ deadline`
(so still enabled at the exact deadline instant, disabled strictly after),
and the countdown is exactly `"Submission Closed"` for every distance ≤ 0
and a nonnegative days/hours/minutes/seconds rendering for positive
distance - never a negative duration string. -/
theorem phase2_deadline_amended (dl t : Int) :
    (phase2MutationAllowed dl t = true ↔ t ≤ dl) ∧
    (dl - t ≤ 0 → countdownDisplay dl t = "Submission Closed") ∧
    (0 < dl - t → ∃ days hours minutes seconds : Nat,
      countdownDisplay dl t =
        s!"{days}d {hours}h {minutes}m {seconds}s") := by
  refine ⟨?_, ?_, ?_⟩
  · simp only [phase2MutationAllowed, isSubmissionClosed, Bool.not_eq_true,
      decide_eq_false_iff_not, not_lt]
    constructor
    · intro h
      by_contra hc
      simp [not_le.mp hc |>.le] at h
      omega
    · intro h
      simp [h, decide_eq_false_iff_not, not_lt]
  · intro h
    simp [countdownDisplay, h]
  · intro h
    refine ⟨(dl - t).toNat / 86400000, (dl - t).toNat % 86400000 / 3600000,
      (dl - t).toNat % 3600000 / 60000, (dl - t).toNat % 60000 / 1000, ?_⟩
    simp [countdownDisplay, not_le.mpr h, le_of_lt]

/-- Witness for the amended C7: mutation still allowed at the exact
deadline instant, countdown closed strictly after it. -/
theorem phase2_deadline_amended_witness :
    phase2MutationAllowed 1000 1000 = true ∧
    countdownDisplay 1000 2000 = "Submission Closed" :=
  ⟨(phase2_deadline_amended 1000 1000).1.mpr (by omega),
    (phase2_deadline_amended 1000 2000).2.1 (by omega)⟩

/-- C10: a team is attempted by the workshop-invite batch exactly when it
is in the fetched team list and passes both the current search term and the
current selection-status filter; any registered team excluded by the active
narrowing receives no invite in that batch. -/
theorem invite_batch_filtered (allTeams : List EmailTeamDoc) (s : String)
    (fs : FilterStatus) (t : EmailTeamDoc) :
    t ∈ workshopInviteAttempts (fetchTeams allTeams s fs) ↔
      t ∈ allTeams ∧ passesFilters s fs t = true := by
  unfold workshopInviteAttempts fetchTeams passesFilters
  by_cases hs : s = "" <;> cases fs <;>
    simp [hs, List.mem_filter] <;> tauto

theorem charOfNat_toNat (c : Char) : Char.ofNat c.toNat = c := by
  have h : c.toNat.isValidChar := c.valid
  apply Char.eq_of_val_eq
  show (Char.ofNat c.toNat).val = c.val
  rw [Char.ofNat, dif_pos h]
  apply UInt32.eq_of_toBitVec_eq
  apply BitVec.eq_of_toNat_eq
  simp [Char.ofNatAux]
  rfl

theorem parseHex_hexDigit : ∀ n < 16, parseHex (hexDigit n) = some n := by
  decide

theorem parseFuel_u_step (f : Nat) (d1 d2 : Char) (a b : Nat) (T : List Char)
    (hd1 : parseHex d1 = some a) (hd2 : parseHex d2 = some b) :
    parseStringBodyFuel (f + 1) ('\\' :: 'u' :: '0' :: '0' :: d1 :: d2 :: T) =
      (parseStringBodyFuel f T).map
        (fun p => (Char.ofNat (4096 * 0 + 256 * 0 + 16 * a + b) :: p.1, p.2))
    := by
  have h0 : parseHex '0' = some 0 := rfl
  simp only [parseStringBodyFuel, h0, hd1, hd2]
  simp

theorem parseFuel_escape (s : List Char) : ∀ (fuel : Nat) (rest : List Char),
    (escapeString s ++ ('\"' :: rest)).length ≤ fuel →
    parseStringBodyFuel fuel (escapeString s ++ ('\"' :: rest)) =
      some (s, rest) := by
  induction s with
  | nil =>
    intro fuel rest hlen
    cases fuel with
    | zero => simp [escapeString] at hlen
    | succ f => rfl
  | cons c cs ih =>
    intro fuel rest hlen
    by_cases h1 : c = '\"'
    · subst h1
      have hl : escapeString ('\"' :: cs) ++ ('\"' :: rest) =
          '\\' :: '\"' :: (escapeString cs ++ ('\"' :: rest)) := rfl
      rw [hl] at hlen ⊢
      cases fuel with
      | zero => simp at hlen
      | succ f =>
        show (parseStringBodyFuel f (escapeString cs ++ ('\"' :: rest))).map
            (fun p => ('\"' :: p.1, p.2)) = some ('\"' :: cs, rest)
        rw [ih f rest (by simp only [List.length_cons] at hlen; omega)]
        rfl
    · by_cases h2 : c = '\\'
      · subst h2
        have hl : escapeString ('\\' :: cs) ++ ('\"' :: rest) =
            '\\' :: '\\' :: (escapeString cs ++ ('\"' :: rest)) := rfl
        rw [hl] at hlen ⊢
        cases fuel with
        | zero => simp at hlen
        | succ f =>
          show (parseStringBodyFuel f (escapeString cs ++ ('\"' :: rest))).map
              (fun p => ('\\' :: p.1, p.2)) = some ('\\' :: cs, rest)
          rw [ih f rest (by simp only [List.length_cons] at hlen; omega)]
          rfl
      · by_cases h3 : c = Char.ofNat 8
        · subst h3
          have hl : escapeString (Char.ofNat 8 :: cs) ++ ('\"' :: rest) =
              '\\' :: 'b' :: (escapeString cs ++ ('\"' :: rest)) := rfl
          rw [hl] at hlen ⊢
          cases fuel with
          | zero => simp at hlen
          | succ f =>
            show (parseStringBodyFuel f
                (escapeString cs ++ ('\"' :: rest))).map
                (fun p => (Char.ofNat 8 :: p.1, p.2)) =
              some (Char.ofNat 8 :: cs, rest)
            rw [ih f rest (by simp only [List.length_cons] at hlen; omega)]
            rfl
        · by_cases h4 : c = Char.ofNat 9
          · subst h4
            have hl : escapeString (Char.ofNat 9 :: cs) ++ ('\"' :: rest) =
                '\\' :: 't' :: (escapeString cs ++ ('\"' :: rest)) := rfl
            rw [hl] at hlen ⊢
            cases fuel with
            | zero => simp at hlen
            | succ f =>
              show (parseStringBodyFuel f
                  (escapeString cs ++ ('\"' :: rest))).map
                  (fun p => (Char.ofNat 9 :: p.1, p.2)) =
                some (Char.ofNat 9 :: cs, rest)
              rw [ih f rest (by simp only [List.length_cons] at hlen; omega)]
              rfl
          · by_cases h5 : c = Char.ofNat 10
            · subst h5
              have hl :
                  escapeString (Char.ofNat 10 :: cs) ++ ('\"' :: rest) =
                    '\\' :: 'n' :: (escapeString cs ++ ('\"' :: rest)) := rfl
              rw [hl] at hlen ⊢
              cases fuel with
              | zero => simp at hlen
              | succ f =>
                show (parseStringBodyFuel f
                    (escapeString cs ++ ('\"' :: rest))).map
                    (fun p => (Char.ofNat 10 :: p.1, p.2)) =
                  some (Char.ofNat 10 :: cs, rest)
                rw [ih f rest
                  (by simp only [List.length_cons] at hlen; omega)]
                rfl
            · by_cases h6 : c = Char.ofNat 12
              · subst h6
                have hl :
                    escapeString (Char.ofNat 12 :: cs) ++ ('\"' :: rest) =
                      '\\' :: 'f' :: (escapeString cs ++ ('\"' :: rest)) :=
                  rfl
                rw [hl] at hlen ⊢
                cases fuel with
                | zero => simp at hlen
                | succ f =>
                  show (parseStringBodyFuel f
                      (escapeString cs ++ ('\"' :: rest))).map
                      (fun p => (Char.ofNat 12 :: p.1, p.2)) =
                    some (Char.ofNat 12 :: cs, rest)
                  rw [ih f rest
                    (by simp only [List.length_cons] at hlen; omega)]
                  rfl
              · by_cases h7 : c = Char.ofNat 13
                · subst h7
                  have hl :
                      escapeString (Char.ofNat 13 :: cs) ++ ('\"' :: rest) =
                        '\\' :: 'r' :: (escapeString cs ++ ('\"' :: rest)) :=
                    rfl
                  rw [hl] at hlen ⊢
                  cases fuel with
                  | zero => simp at hlen
                  | succ f =>
                    show (parseStringBodyFuel f
                        (escapeString cs ++ ('\"' :: rest))).map
                        (fun p => (Char.ofNat 13 :: p.1, p.2)) =
                      some (Char.ofNat 13 :: cs, rest)
                    rw [ih f rest
                      (by simp only [List.length_cons] at hlen; omega)]
                    rfl
                · by_cases h8 : c.toNat < 32
                  · have hesc : escapeChar c =
                        ['\\', 'u', '0', '0', hexDigit (c.toNat / 16),
                          hexDigit (c.toNat % 16)] := by
                      simp [escapeChar, h1, h2, h3, h4, h5, h6, h7, h8]
                    have hl : escapeString (c :: cs) ++ ('\"' :: rest) =
                        '\\' :: 'u' :: '0' :: '0' ::
                          hexDigit (c.toNat / 16) :: hexDigit (c.toNat % 16)
                          :: (escapeString cs ++ ('\"' :: rest)) := by
                      simp [escapeString, hesc]
                    rw [hl] at hlen ⊢
                    cases fuel with
                    | zero => simp at hlen
                    | succ f =>
                      rw [parseFuel_u_step f _ _ (c.toNat / 16)
                        (c.toNat % 16) _
                        (parseHex_hexDigit _ (by omega))
                        (parseHex_hexDigit _ (by omega))]
                      rw [ih f rest
                        (by simp only [List.length_cons] at hlen; omega)]
                      have harith : 16 * (c.toNat / 16) + c.toNat % 16 =
                          c.toNat := by omega
                      simp [harith, charOfNat_toNat]
                  · have hesc : escapeChar c = [c] := by
                      simp [escapeChar, h1, h2, h3, h4, h5, h6, h7, h8]
                    have hl : escapeString (c :: cs) ++ ('\"' :: rest) =
                        c :: (escapeString cs ++ ('\"' :: rest)) := by
                      simp [escapeString, hesc]
                    rw [hl] at hlen ⊢
                    cases fuel with
                    | zero => simp at hlen
                    | succ f =>
                      have hstep : parseStringBodyFuel (f + 1)
                          (c :: (escapeString cs ++ ('\"' :: rest))) =
                          (parseStringBodyFuel f
                            (escapeString cs ++ ('\"' :: rest))).map
                            (fun p => (c :: p.1, p.2)) := by
                        simp only [parseStringBodyFuel]
                        rw [if_neg h1, if_neg h2]
                      rw [hstep,
                        ih f rest
                          (by simp only [List.length_cons] at hlen; omega)]
                      rfl

theorem parseStringBody_escape (s rest : List Char) :
    parseStringBody (escapeString s ++ ('\"' :: rest)) = some (s, rest) :=
  parseFuel_escape s _ rest (le_refl _)

theorem dropLit_append (l s : List Char) : dropLit l (l ++ s) = some s := by
  induction l with
  | nil => rfl
  | cons c cs ih => simp [dropLit, ih]

theorem jsonPayload_roundtrip (regId nm tm : String) :
    decodeTicketPayload (jsonStringifyPayload regId.data nm.data tm.data) =
      some (regId, nm, tm) := by
  unfold jsonStringifyPayload decodeTicketPayload
  rw [dropLit_append]
  simp only [Option.bind]
  rw [parseStringBody_escape]
  simp only [Option.bind]
  rw [dropLit_append]
  simp only [Option.bind]
  rw [parseStringBody_escape]
  simp only [Option.bind]
  rw [dropLit_append]
  simp only [Option.bind]
  rw [parseStringBody_escape]
  simp only [Option.bind]
  simp

/-- C8: decoding the payload embedded in a member's e-ticket QR code
reproduces exactly the registration id, member name and team name from which
`generateETicket` built it - encode followed by decode is the identity on
these three fields, for every payload. -/
theorem qr_payload_roundtrip (data : ETicketData) :
    decodeTicketPayload (generateETicketQrData data) =
      some (data.registrationId, data.member.name, data.teamName) :=
  jsonPayload_roundtrip data.registrationId data.member.name data.teamName

end StartupSpark

